import Mathlib

/-!
Verification development for the GiST bulk-delete core of gistvacuum.c
(gistbulkdelete, gistbulkdeletelogical, and their auxiliary hash-table
helpers).  The C code is embedded shallowly: pages are records, the three
hash tables are functions from block numbers to optional entries, the
rescan work list is an explicit FIFO queue, and the rescan loop is run on
fuel since the C loop has no termination guarantee.  elog(ERROR) aborts
are modelled as an error value returned together with the state reached
at the abort point.
-/

namespace GistVacuum

/-- Block numbers address index pages; GIST_ROOT_BLKNO is block 0. -/
abbrev BlockNumber := Nat

def GIST_ROOT_BLKNO : BlockNumber := 0

/-- A GiST page: the F_LEAF flag, the F_DELETED flag, PageIsNew
(uninitialized page), the ordered tuple sequence (heap tids on leaf
pages, child block numbers on inner pages), the rightlink (none models
InvalidBlockNumber), the FOLLOW_RIGHT flag, the NSN and the page LSN. -/
structure GistPage where
  isLeaf : Bool
  deleted : Bool
  isNew : Bool
  tuples : List Nat
  rightlink : Option BlockNumber
  followRight : Bool
  nsn : Nat
  lsn : Nat
deriving DecidableEq

/-- Reading an out-of-range block yields an uninitialized page. -/
def defaultPage : GistPage :=
  { isLeaf := false, deleted := false, isNew := true, tuples := [],
    rightlink := none, followRight := false, nsn := 0, lsn := 0 }

/-- The on-disk index: pages indexed by block number; the length is
RelationGetNumberOfBlocks. -/
structure IndexState where
  pages : List GistPage
deriving DecidableEq

def readPage (st : IndexState) (b : BlockNumber) : GistPage :=
  st.pages.getD b defaultPage

def writePage (st : IndexState) (b : BlockNumber) (p : GistPage) : IndexState :=
  ⟨st.pages.set b p⟩

/-- IndexBulkDeleteResult fields used by gistbulkdelete. -/
structure BulkStats where
  num_index_tuples : Nat
  tuples_removed : Nat
  pages_deleted : Nat
  estimated_count : Bool
deriving DecidableEq

def zeroStats : BulkStats :=
  { num_index_tuples := 0, tuples_removed := 0, pages_deleted := 0,
    estimated_count := false }

/-- Ambient inputs of one gistbulkdelete invocation: the deletion
callback, XactLastRecEnd captured at entry (lastNSN), the active
snapshot xmin, RecentGlobalDataXmin, the external TransactionIdPrecedes
comparison, and RelationNeedsWAL. -/
structure Env where
  callback : Nat → Bool
  lastNSN : Nat
  xmin : Nat
  rgdx : Nat
  precedes : Nat → Nat → Bool
  needsWAL : Bool

/-- Rescan work item (GistBDSItem without the intrusive next pointer). -/
structure GistBDSItem where
  blkno : BlockNumber
  isParent : Bool
deriving DecidableEq

/-- Logical-descent stack item (GistBDItem). -/
structure GistBDItem where
  blkno : BlockNumber
  parentlsn : Nat
deriving DecidableEq

/-- One gistXLogUpdate record: page, deleted offsets, assigned LSN. -/
structure WalRec where
  blkno : BlockNumber
  offsets : List Nat
  lsn : Nat
deriving DecidableEq

/-- elog(ERROR) aborts raised inside the bulk delete. -/
inductive VacError where
  | MissingParent (b : BlockNumber)
  | MissingXid (b : BlockNumber)
  | OutOfFuel
deriving DecidableEq

/-- Pointwise update of a hash-table model. -/
def upd {α : Type} (m : BlockNumber → Option α) (k : BlockNumber) (v : α) :
    BlockNumber → Option α :=
  fun x => if x = k then some v else m x

/-- gistMemorizeParentTab: HASH_ENTER and store the parent. -/
def gistMemorizeParentTab (m : BlockNumber → Option BlockNumber)
    (child parent : BlockNumber) : BlockNumber → Option BlockNumber :=
  upd m child parent

/-- gistGetParentTab: HASH_FIND, elog(ERROR) when the child is absent. -/
def gistGetParentTab (m : BlockNumber → Option BlockNumber)
    (child : BlockNumber) : Except VacError BlockNumber :=
  match m child with
  | some p => .ok p
  | none => .error (.MissingParent child)

/-- A GistDelLinkItem entry: (toDelete, isDeleted). -/
abbrev DelLinkMap := BlockNumber → Option (Bool × Bool)

/-- gistGetDeleteLink: toDelete of the entry, false when absent. -/
def gistGetDeleteLink (m : DelLinkMap) (b : BlockNumber) : Bool :=
  match m b with
  | some e => e.1
  | none => false

/-- gistIsDeletedLink: isDeleted of the entry, false when absent. -/
def gistIsDeletedLink (m : DelLinkMap) (b : BlockNumber) : Bool :=
  match m b with
  | some e => e.2
  | none => false

/-- gistMemorizeLinkToDelete: HASH_ENTER, sets toDelete := true and the
given isDeleted. -/
def gistMemorizeLinkToDelete (m : DelLinkMap) (b : BlockNumber)
    (isDeleted : Bool) : DelLinkMap :=
  upd m b (true, isDeleted)

/-- gistRemoveLinkToDelete: HASH_REMOVE. -/
def gistRemoveLinkToDelete (m : DelLinkMap) (b : BlockNumber) : DelLinkMap :=
  fun x => if x = b then none else m x

/-- gistGetXidBlock: HASH_FIND, elog(ERROR) when absent.  The C function
is declared with return type bool, which this source (pre-9.6 function
manager interface) typedefs as char, so the stored TransactionId
entry.id is truncated to a char — reduced mod 256 — on the way back to
the TransactionId local at the call site. -/
def gistGetXidBlock (m : BlockNumber → Option Nat) (b : BlockNumber) :
    Except VacError Nat :=
  match m b with
  | some id => .ok (id % 256)
  | none => .error (.MissingXid b)

/-- gistMemorizeXidBlock: HASH_ENTER and store the xid. -/
def gistMemorizeXidBlock (m : BlockNumber → Option Nat) (b : BlockNumber)
    (id : Nat) : BlockNumber → Option Nat :=
  upd m b id

/-- The offset collection loop shared by both passes: tuples are scanned
at 1-based offsets i, and a dead tuple is recorded as i - ntodelete,
ntodelete being the number already collected. -/
def collectOffsets (cb : Nat → Bool) : List Nat → Nat → Nat → List Nat
  | [], _, _ => []
  | t :: ts, i, n =>
    if cb t then (i - n) :: collectOffsets cb ts (i + 1) (n + 1)
    else collectOffsets cb ts (i + 1) n

/-- PageIndexTupleDelete at a 1-based offset. -/
def pageIndexTupleDelete (tuples : List Nat) (off : Nat) : List Nat :=
  tuples.eraseIdx (off - 1)

/-- The sequential deletion loop over a collected offset array. -/
def applyDeletes (offs : List Nat) (tuples : List Nat) : List Nat :=
  offs.foldl pageIndexTupleDelete tuples

/-- Full state of one invocation: the index, the statistics, the three
hash tables, the rescan queue, the emitted WAL stream and the LSN
counter feeding gistXLogUpdate / gistGetFakeLSN. -/
structure VacState where
  st : IndexState
  stats : BulkStats
  parentMap : BlockNumber → Option BlockNumber
  deleteLinkMap : DelLinkMap
  xidMap : BlockNumber → Option Nat
  queue : List GistBDSItem
  wal : List WalRec
  nextLsn : Nat

def initVacState (st : IndexState) (stats : BulkStats) : VacState :=
  { st := st, stats := stats, parentMap := fun _ => none,
    deleteLinkMap := fun _ => none, xidMap := fun _ => none,
    queue := [], wal := [], nextLsn := 1 }

/-- gistXLogUpdate + PageSetLSN when the relation is WAL-logged,
PageSetLSN(gistGetFakeLSN) otherwise; returns the LSN that is stamped. -/
def emitUpdate (env : Env) (vs : VacState) (b : BlockNumber)
    (offs : List Nat) : VacState × Nat :=
  if env.needsWAL then
    ({ vs with wal := vs.wal ++ [⟨b, offs, vs.nextLsn⟩], nextLsn := vs.nextLsn + 1 },
     vs.nextLsn)
  else
    ({ vs with nextLsn := vs.nextLsn + 1 }, vs.nextLsn)

/-- The critical section shared by all three deletion sites: apply the
collected offsets with PageIndexTupleDelete, emit the update record (or
take a fake LSN) and stamp the page LSN. -/
def critDelete (env : Env) (vs : VacState) (b : BlockNumber)
    (offs : List Nat) : VacState :=
  let page := readPage vs.st b
  let page1 := { page with tuples := applyDeletes offs page.tuples }
  let r := emitUpdate env vs b offs
  { r.1 with st := writePage r.1.st b { page1 with lsn := r.2 } }

/-- Append one work item at the queue tail (tail->next = item). -/
def physEnqueue (vs : VacState) (it : GistBDSItem) : VacState :=
  { vs with queue := vs.queue ++ [it] }

/-- The follow-right / NSN rightlink enqueue shared by both passes: for
a non-root page with a valid rightlink whose followRight flag is set or
whose NSN exceeds lastNSN, append {rightlink, isParent=false}. -/
def rightlinkEnqueue (env : Env) (vs : VacState) (blkno : BlockNumber)
    (page : GistPage) : VacState :=
  if blkno ≠ GIST_ROOT_BLKNO ∧ (page.followRight ∨ env.lastNSN < page.nsn) then
    match page.rightlink with
    | some rl => physEnqueue vs ⟨rl, false⟩
    | none => vs
  else vs

/-- The per-page scan of the physical pass (gistbulkdelete first loop):
leaf pages memorize their xid, collect dead offsets and update the
tuple statistics; inner pages enqueue their rightlink when the
follow-right / NSN rule fires against lastNSN, memorize their xid and
record themselves as parent of every downlink child.  Returns the state
and the collected offset array. -/
def physScan (env : Env) (vs : VacState) (blkno : BlockNumber) :
    VacState × List Nat :=
  let page := readPage vs.st blkno
  if page.isLeaf then
    let vs0 := { vs with xidMap := gistMemorizeXidBlock vs.xidMap blkno env.xmin }
    let offs := collectOffsets env.callback page.tuples 1 0
    let nt := offs.length
    let maxoff := page.tuples.length
    let sts :=
      { vs0.stats with
          tuples_removed := vs0.stats.tuples_removed + nt,
          num_index_tuples := vs0.stats.num_index_tuples + (maxoff - nt) }
    ({ vs0 with stats := sts }, offs)
  else
    let vs0 := rightlinkEnqueue env vs blkno page
    let vs1 := { vs0 with xidMap := gistMemorizeXidBlock vs0.xidMap blkno env.xmin }
    let pm := page.tuples.foldl (fun m c => gistMemorizeParentTab m c blkno) vs1.parentMap
    let vs2 := { vs1 with parentMap := pm }
    (vs2, [])

/-- The deferral / physical-deletion dispatch at the end of a physical
pass iteration: with something to delete or a PageIsNew page, either
enqueue {blkno, isParent=true} and memorize the block as to-delete
(processed=false) when every entry would go or the page is new, or
physically delete the offsets inside the critical section. -/
def physFinish (env : Env) (vs1 : VacState) (blkno : BlockNumber)
    (maxoff : Nat) (isNew : Bool) (offs : List Nat) : VacState :=
  if offs.length ≠ 0 ∨ isNew then
    if maxoff = offs.length ∨ isNew then
      let vs2 := physEnqueue vs1 ⟨blkno, true⟩
      { vs2 with deleteLinkMap := gistMemorizeLinkToDelete vs2.deleteLinkMap blkno false }
    else
      critDelete env vs1 blkno offs
  else vs1

/-- One full iteration of the physical pass for one block. -/
def physStep (env : Env) (vs : VacState) (blkno : BlockNumber) : VacState :=
  let page := readPage vs.st blkno
  let s := physScan env vs blkno
  physFinish env s.1 blkno page.tuples.length page.isNew s.2

/-- The physical pass: blocks GIST_ROOT_BLKNO .. npages-1 in order. -/
def physPass (env : Env) (npages : Nat) (vs : VacState) : VacState :=
  (List.range npages).foldl (physStep env) vs

/-- Accumulator of the rescan child loop: current state, the offsets
scheduled for removal from the inner page, their count, and the 1-based
offset of the downlink under inspection. -/
structure ChildAcc where
  vs : VacState
  offs : List Nat
  nt : Nat
  i : Nat

/-- One downlink of an inner page during the rescan pass: when the child
is recorded as to-delete and the looked-up xid (truncated to char by
the bool return type of gistGetXidBlock) precedes RecentGlobalDataXmin,
the child page is re-verified: a leaf
child is swept again with the callback, its dead entries are removed in
a critical section, and when everything went (or the child was
new/empty) it is marked deleted and its downlink is scheduled; an inner
child is marked deleted and scheduled outright.  Otherwise the downlink
is passed over. -/
def rescanChild (env : Env) (acc : ChildAcc) (c : BlockNumber) :
    ChildAcc × Option VacError :=
  let i := acc.i
  if gistGetDeleteLink acc.vs.deleteLinkMap c then
    match gistGetXidBlock acc.vs.xidMap c with
    | .error e => (acc, some e)
    | .ok idc =>
      if env.precedes idc env.rgdx then
        let vs := acc.vs
        let childpage := readPage vs.st c
        let childIsNew := childpage.isNew || childpage.tuples.isEmpty
        if childpage.isLeaf then
          let offsC := collectOffsets env.callback childpage.tuples 1 0
          let ntC := offsC.length
          let maxoffC := childpage.tuples.length
          let vs1 :=
            if ntC ≠ 0 then
              { vs with deleteLinkMap :=
                  gistMemorizeLinkToDelete (gistRemoveLinkToDelete vs.deleteLinkMap c) c true }
            else vs
          if ntC ≠ 0 ∨ childIsNew then
            let vs2 := critDelete env vs1 c offsC
            if ntC = maxoffC ∨ childIsNew then
              let cp := readPage vs2.st c
              let st3 := writePage vs2.st c { cp with deleted := true }
              let sts3 := { vs2.stats with pages_deleted := vs2.stats.pages_deleted + 1 }
              let vs3 := { vs2 with st := st3, stats := sts3 }
              ({ vs := vs3, offs := acc.offs ++ [i - acc.nt], nt := acc.nt + 1, i := i + 1 }, none)
            else
              ({ acc with vs := vs2, i := i + 1 }, none)
          else
            ({ acc with vs := vs1, i := i + 1 }, none)
        else
          let cp := readPage vs.st c
          let st1 := writePage vs.st c { cp with deleted := true }
          let sts1 := { vs.stats with pages_deleted := vs.stats.pages_deleted + 1 }
          let vs1 := { vs with st := st1, stats := sts1 }
          ({ vs := vs1, offs := acc.offs ++ [i - acc.nt], nt := acc.nt + 1, i := i + 1 }, none)
      else ({ acc with i := i + 1 }, none)
  else ({ acc with i := i + 1 }, none)

/-- The child loop of the rescan pass over all downlinks. -/
def rescanChildrenGo (env : Env) : List BlockNumber → ChildAcc →
    ChildAcc × Option VacError
  | [], acc => (acc, none)
  | c :: cs, acc =>
    match rescanChild env acc c with
    | (acc1, none) => rescanChildrenGo env cs acc1
    | (acc1, some e) => (acc1, some e)

/-- The tail of a rescan iteration: with offsets scheduled or the page
new/empty, delete them in a critical section; when every entry is gone
(or the page is new/empty), a non-root page enqueues {parent, false}
(gistGetParentTab may abort) and memorizes itself as processed, while
the root gets its F_LEAF flag set instead. -/
def rescanTail (env : Env) (vs : VacState) (blkno : BlockNumber)
    (maxoff : Nat) (offs : List Nat) : VacState × Option VacError :=
  let nt := offs.length
  let pageT := readPage vs.st blkno
  let isNew := pageT.isNew || pageT.tuples.isEmpty
  if nt ≠ 0 ∨ isNew then
    let vs1 := critDelete env vs blkno offs
    if maxoff = nt ∨ isNew then
      if blkno ≠ GIST_ROOT_BLKNO then
        match gistGetParentTab vs1.parentMap blkno with
        | .error e => (vs1, some e)
        | .ok p =>
          ({ vs1 with
             queue := vs1.queue ++ [⟨p, false⟩],
             deleteLinkMap :=
               gistMemorizeLinkToDelete (gistRemoveLinkToDelete vs1.deleteLinkMap blkno) blkno true },
           none)
      else
        let pg := readPage vs1.st blkno
        ({ vs1 with st := writePage vs1.st blkno { pg with isLeaf := true } }, none)
    else (vs1, none)
  else (vs, none)

/-- One iteration of the rescan loop on the dequeued item: resolve the
target (the parent for isParent items, aborting when unrecorded), skip
blocks memorized as already processed, sweep leaf targets with the
callback without touching the statistics, and run the child loop on
inner targets after the follow-right / NSN rightlink enqueue. -/
def rescanStep (env : Env) (vs : VacState) (item : GistBDSItem)
    (rest : List GistBDSItem) : VacState × Option VacError :=
  let resolved : Except VacError BlockNumber :=
    if item.isParent then gistGetParentTab vs.parentMap item.blkno
    else .ok item.blkno
  match resolved with
  | .error e => (vs, some e)
  | .ok blkno =>
    if gistIsDeletedLink vs.deleteLinkMap blkno then
      ({ vs with queue := rest }, none)
    else
      let page := readPage vs.st blkno
      let vs0 := { vs with queue := rest }
      if page.isLeaf then
        let vs1 := { vs0 with xidMap := gistMemorizeXidBlock vs0.xidMap blkno env.xmin }
        let offs := collectOffsets env.callback page.tuples 1 0
        rescanTail env vs1 blkno page.tuples.length offs
      else
        let maxoff := page.tuples.length
        let vs1 := rightlinkEnqueue env vs0 blkno page
        match rescanChildrenGo env page.tuples ⟨vs1, [], 0, 1⟩ with
        | (acc, some e) => (acc.vs, some e)
        | (acc, none) => rescanTail env acc.vs blkno maxoff acc.offs

/-- The rescan loop, consuming the FIFO queue on fuel. -/
def rescanLoop (env : Env) : Nat → VacState → VacState × Option VacError
  | 0, vs => (vs, if vs.queue.isEmpty then none else some .OutOfFuel)
  | fuel + 1, vs =>
    match vs.queue with
    | [] => (vs, none)
    | item :: rest =>
      match rescanStep env vs item rest with
      | (vs1, none) => rescanLoop env fuel vs1
      | (vs1, some e) => (vs1, some e)

/-- Result of one bulk-delete invocation: final index, statistics, the
abort (if any), and the handles passed to the four hash_destroy calls
at normal exit (none models a handle that was never assigned). -/
structure RunResult where
  state : IndexState
  stats : BulkStats
  err : Option VacError
  hashDestroyArgs : List (Option Nat)

/-- pushStackIfSplited: push the rightlink under the current stack top
when the parent LSN is valid and the follow-right / NSN rule fires. -/
def pushStackIfSplited (page : GistPage) (blkno : BlockNumber)
    (parentlsn : Nat) (rest : List GistBDItem) : List GistBDItem :=
  if blkno ≠ GIST_ROOT_BLKNO ∧ parentlsn ≠ 0 ∧
      (page.followRight ∨ parentlsn < page.nsn) then
    match page.rightlink with
    | some rl => ⟨rl, parentlsn⟩ :: rest
    | none => rest
  else rest

/-- The leaf sweep of gistbulkdeletelogical: collect the dead offsets,
count removed and surviving tuples into the statistics, and purge the
page in place inside the critical section when anything was collected. -/
def logicalLeafStep (env : Env) (vs : VacState) (blkno : BlockNumber) : VacState :=
  let page := readPage vs.st blkno
  let offs := collectOffsets env.callback page.tuples 1 0
  let nt := offs.length
  let maxoff := page.tuples.length
  let sts :=
    { vs.stats with
        tuples_removed := vs.stats.tuples_removed + nt,
        num_index_tuples := vs.stats.num_index_tuples + (maxoff - nt) }
  let vs1 := { vs with stats := sts }
  if nt ≠ 0 then critDelete env vs1 blkno offs else vs1

/-- The stack loop of gistbulkdeletelogical: depth-first descent from
the root; leaf pages are swept with the callback (counting both removed
and surviving tuples) and purged in place; inner pages push every
downlink with the page LSN as parent LSN.  No page is ever reclaimed. -/
def logicalLoop (env : Env) : Nat → List GistBDItem → VacState →
    VacState × Option VacError
  | 0, stack, vs => (vs, if stack.isEmpty then none else some .OutOfFuel)
  | fuel + 1, stack, vs =>
    match stack with
    | [] => (vs, none)
    | it :: rest =>
      let page := readPage vs.st it.blkno
      if page.isLeaf then
        if it.blkno = GIST_ROOT_BLKNO ∧ page.isLeaf = false then
          logicalLoop env fuel rest vs
        else
          let rest1 := pushStackIfSplited page it.blkno it.parentlsn rest
          logicalLoop env fuel rest1 (logicalLeafStep env vs it.blkno)
      else
        let rest1 := pushStackIfSplited page it.blkno it.parentlsn rest
        let rest2 := page.tuples.foldl
            (fun r child => (⟨child, page.lsn⟩ : GistBDItem) :: r) rest1
        logicalLoop env fuel rest2 vs

/-- gistbulkdeletelogical: the memory-budget fallback. -/
def gistbulkdeletelogical (env : Env) (st : IndexState) (stats : BulkStats)
    (fuel : Nat) : RunResult :=
  let stats1 := { stats with estimated_count := false, num_index_tuples := 0 }
  let vs0 := initVacState st stats1
  let r := logicalLoop env fuel [⟨GIST_ROOT_BLKNO, 0⟩] vs0
  { state := r.1.st, stats := r.1.stats, err := r.2, hashDestroyArgs := [] }

/-- sizeof(ParentMapEntry): two BlockNumbers. -/
def sizeofParentMapEntry : Nat := 8

/-- sizeof(BlockNumber). -/
def sizeofBlockNumber : Nat := 4

/-- The value the C sees after storing a nonnegative product into a
32-bit signed int: the product is reduced mod 2^32 and the top bit
becomes the sign. -/
def int32OfNat (n : Nat) : Int :=
  let m : Nat := n % 4294967296
  if m < 2147483648 then (m : Int) else (m : Int) - 4294967296

/-- The memory-budget test of gistbulkdelete (lines 511-512): the
product npages * (sizeof(ParentMapEntry) + sizeof(BlockNumber)) is
assigned to the 32-bit int memoryneeded — truncating for
npages > INT_MAX/12 — and compared against maintenance_work_mem
(kilobytes) times 1024. -/
def memCheckExceeds (npages maintenance_work_mem : Nat) : Bool :=
  decide (int32OfNat (npages * (sizeofParentMapEntry + sizeofBlockNumber)) >
    (maintenance_work_mem : Int) * 1024)

/-- The in-memory two-pass algorithm of gistbulkdelete: create the hash
tables (the rightLinkMap handle is declared but its hash_create is
commented out in the source, so it is still unassigned — none — when
passed to hash_destroy), run the physical pass over all blocks, then
consume the rescan queue. -/
def gistbulkdeleteTwoPass (env : Env) (st : IndexState) (stats : BulkStats)
    (fuel : Nat) : RunResult :=
  let parentMapH : Option Nat := some 0
  let deleteLinkMapH : Option Nat := some 1
  let rightLinkMapH : Option Nat := none
  let xidMapH : Option Nat := some 2
  let vs0 := initVacState st stats
  let vs1 := physPass env st.pages.length vs0
  let r := rescanLoop env fuel vs1
  { state := r.1.st, stats := r.1.stats, err := r.2,
    hashDestroyArgs :=
      match r.2 with
      | none => [xidMapH, rightLinkMapH, deleteLinkMapH, parentMapH]
      | some _ => [] }

/-- gistbulkdelete: reset the statistics, run the 32-bit memory-budget
check and either fall back to the logical descent or run the two-pass
algorithm. -/
def gistbulkdelete (env : Env) (st : IndexState) (stats0 : BulkStats)
    (maintenance_work_mem : Nat) (fuel : Nat) : RunResult :=
  let stats := { stats0 with estimated_count := false, num_index_tuples := 0 }
  let npages := st.pages.length
  if memCheckExceeds npages maintenance_work_mem then
    gistbulkdeletelogical env st stats fuel
  else
    gistbulkdeleteTwoPass env st stats fuel

/-- The relation "the second page differs from the first at most by
purging dead leaf entries": flags and rightlink are unchanged, and the
tuples are either untouched or (on a leaf) filtered by the callback. -/
def leafOnlyPurge (cb : Nat → Bool) (p q : GistPage) : Prop :=
  q.deleted = p.deleted ∧ q.isLeaf = p.isLeaf ∧ q.rightlink = p.rightlink ∧
  (q.tuples = p.tuples ∨ (p.isLeaf = true ∧ q.tuples = p.tuples.filter (fun t => ! cb t)))

/-- Number of tuples sitting on leaf pages of the index. -/
def leafTupleTotal (st : IndexState) : Nat :=
  ((List.range st.pages.length).map
      (fun b => if (readPage st b).isLeaf = true then (readPage st b).tuples.length else 0)).sum

/-- C1 scenario: sibling chain L1→L2→L3 under the root; the callback
kills exactly the tuples of L2. -/
def envC1 : Env :=
  { callback := fun t => decide (20 ≤ t ∧ t < 30), lastNSN := 0, xmin := 5,
    rgdx := 100, precedes := fun a b => decide (a < b), needsWAL := true }

def stC1 : IndexState := ⟨[
  { isLeaf := false, deleted := false, isNew := false, tuples := [1, 2, 3],
    rightlink := none, followRight := false, nsn := 0, lsn := 0 },
  { isLeaf := true, deleted := false, isNew := false, tuples := [10],
    rightlink := some 2, followRight := false, nsn := 0, lsn := 0 },
  { isLeaf := true, deleted := false, isNew := false, tuples := [20, 21],
    rightlink := some 3, followRight := false, nsn := 0, lsn := 0 },
  { isLeaf := true, deleted := false, isNew := false, tuples := [30],
    rightlink := none, followRight := false, nsn := 0, lsn := 0 }]⟩

/-- Environment with an all-dead callback and an open xid gate. -/
def envAllDead : Env :=
  { callback := fun _ => true, lastNSN := 0, xmin := 5,
    rgdx := 100, precedes := fun a b => decide (a < b), needsWAL := true }

/-- C6 scenario: inner root over two leaves, every tuple dead. -/
def stC6 : IndexState := ⟨[
  { isLeaf := false, deleted := false, isNew := false, tuples := [1, 2],
    rightlink := none, followRight := false, nsn := 0, lsn := 0 },
  { isLeaf := true, deleted := false, isNew := false, tuples := [10, 11],
    rightlink := none, followRight := false, nsn := 0, lsn := 0 },
  { isLeaf := true, deleted := false, isNew := false, tuples := [12],
    rightlink := none, followRight := false, nsn := 0, lsn := 0 }]⟩

/-- C6 boundary input: the whole index is one leaf root, every tuple dead. -/
def stC6b : IndexState := ⟨[
  { isLeaf := true, deleted := false, isNew := false, tuples := [42],
    rightlink := none, followRight := false, nsn := 0, lsn := 0 }]⟩

/-- C2 counterexample input: a single initialized, empty, live leaf. -/
def vsEmptyLeaf : VacState := initVacState ⟨[
  { isLeaf := true, deleted := false, isNew := false, tuples := [],
    rightlink := none, followRight := false, nsn := 0, lsn := 0 }]⟩ zeroStats

/-- C3 counterexample: page 1 is inner with rightlink 2 and NSN 5; its
parent (the root) has NSN 0, but lastNSN is 10. -/
def envC3 : Env :=
  { callback := fun _ => false, lastNSN := 10, xmin := 5,
    rgdx := 100, precedes := fun a b => decide (a < b), needsWAL := true }

def stC3 : IndexState := ⟨[
  { isLeaf := false, deleted := false, isNew := false, tuples := [1],
    rightlink := none, followRight := false, nsn := 0, lsn := 0 },
  { isLeaf := false, deleted := false, isNew := false, tuples := [2],
    rightlink := some 2, followRight := false, nsn := 5, lsn := 0 },
  { isLeaf := true, deleted := false, isNew := false, tuples := [7],
    rightlink := none, followRight := false, nsn := 0, lsn := 0 }]⟩

/-- C3 witness input: page 1 is inner with followRight set. -/
def stC3w : IndexState := ⟨[
  { isLeaf := false, deleted := false, isNew := false, tuples := [1],
    rightlink := none, followRight := false, nsn := 0, lsn := 0 },
  { isLeaf := false, deleted := false, isNew := false, tuples := [2],
    rightlink := some 2, followRight := true, nsn := 5, lsn := 0 },
  { isLeaf := true, deleted := false, isNew := false, tuples := [7],
    rightlink := none, followRight := false, nsn := 0, lsn := 0 }]⟩

/-- C8 scenario: the xid gate is closed (TransactionIdPrecedes(1, 1) is
false), so the all-dead leaf 1 is deferred and never reclaimed. -/
def envC8 : Env :=
  { callback := fun t => decide (t < 15), lastNSN := 0, xmin := 5,
    rgdx := 1, precedes := fun a b => decide (a < b), needsWAL := true }

def stC8 : IndexState := ⟨[
  { isLeaf := false, deleted := false, isNew := false, tuples := [1, 2],
    rightlink := none, followRight := false, nsn := 0, lsn := 0 },
  { isLeaf := true, deleted := false, isNew := false, tuples := [10, 11],
    rightlink := none, followRight := false, nsn := 0, lsn := 0 },
  { isLeaf := true, deleted := false, isNew := false, tuples := [20],
    rightlink := none, followRight := false, nsn := 0, lsn := 0 }]⟩

/-- C9 scenario: remembered snapshot xmin 300, RecentGlobalDataXmin
100, numeric TransactionIdPrecedes (faithful for these normal ids): 300
does not precede 100, but 300 mod 256 = 44 does. -/
def envC9 : Env :=
  { callback := fun _ => true, lastNSN := 0, xmin := 300,
    rgdx := 100, precedes := fun a b => decide (a < b), needsWAL := true }

def stC9 : IndexState := ⟨[
  { isLeaf := false, deleted := false, isNew := false, tuples := [1],
    rightlink := none, followRight := false, nsn := 0, lsn := 0 },
  { isLeaf := true, deleted := false, isNew := false, tuples := [10],
    rightlink := none, followRight := false, nsn := 0, lsn := 0 }]⟩

/-- C5 witness input: a queue holding {3, isParent=true} with an empty
parent map. -/
def vsC5w : VacState :=
  { initVacState stC6 zeroStats with queue := [⟨3, true⟩] }

/-- C4 counterexample input: an index of 360000000 blocks (about 2.7 TB
of pages), whose map-entry product 4320000000 bytes wraps mod 2^32 to
25032704 when stored into the 32-bit int memoryneeded. -/
def stBig : IndexState := ⟨List.replicate 360000000 defaultPage⟩

theorem getD_set {α : Type} (p d : α) :
    ∀ (l : List α) (i j : Nat),
      (l.set i p).getD j d = if j = i ∧ i < l.length then p else l.getD j d := by
  intro l
  induction l with
  | nil => intro i j; simp
  | cons a l ih =>
    intro i j
    cases i with
    | zero =>
      cases j with
      | zero => simp
      | succ j => simp
    | succ i =>
      cases j with
      | zero => simp
      | succ j => simpa [Nat.succ_lt_succ_iff] using ih i j

theorem readPage_writePage (st : IndexState) (b b' : BlockNumber) (p : GistPage) :
    readPage (writePage st b p) b' =
      if b' = b ∧ b < st.pages.length then p else readPage st b' :=
  getD_set p defaultPage st.pages b b'

theorem writePage_length (st : IndexState) (b : BlockNumber) (p : GistPage) :
    (writePage st b p).pages.length = st.pages.length := by
  simp [writePage]

theorem collectOffsets_length_le (cb : Nat → Bool) :
    ∀ (ts : List Nat) (i n : Nat), (collectOffsets cb ts i n).length ≤ ts.length := by
  intro ts
  induction ts with
  | nil => intro i n; simp [collectOffsets]
  | cons t ts ih =>
    intro i n
    by_cases h : cb t
    · simpa [collectOffsets, h, Nat.succ_le_succ_iff] using ih (i + 1) (n + 1)
    · simp only [collectOffsets, h, if_false]
      exact Nat.le_succ_of_le (ih (i + 1) n)

theorem applyDeletes_cons (o : Nat) (offs tuples : List Nat) :
    applyDeletes (o :: offs) tuples = applyDeletes offs (pageIndexTupleDelete tuples o) :=
  rfl

theorem eraseIdx_append_cons {α : Type} (t : α) :
    ∀ (pre l : List α), (pre ++ t :: l).eraseIdx pre.length = pre ++ l := by
  intro pre
  induction pre with
  | nil => intro l; rfl
  | cons a pre ih => intro l; simp [List.eraseIdx, ih l]

theorem applyDeletes_collectOffsets (cb : Nat → Bool) :
    ∀ (ts pre : List Nat) (n : Nat),
      applyDeletes (collectOffsets cb ts (pre.length + n + 1) n) (pre ++ ts) =
        pre ++ ts.filter (fun t => ! cb t) := by
  intro ts
  induction ts with
  | nil => intro pre n; simp [collectOffsets, applyDeletes]
  | cons t ts ih =>
    intro pre n
    by_cases h : cb t
    · have e1 : collectOffsets cb (t :: ts) (pre.length + n + 1) n =
          (pre.length + n + 1 - n) :: collectOffsets cb ts (pre.length + n + 1 + 1) (n + 1) := by
        simp [collectOffsets, h]
      have e2 : pre.length + n + 1 - n = pre.length + 1 := by omega
      rw [e1, e2, applyDeletes_cons]
      have e3 : pageIndexTupleDelete (pre ++ t :: ts) (pre.length + 1) = pre ++ ts := by
        simp [pageIndexTupleDelete, eraseIdx_append_cons]
      rw [e3]
      have e4 : pre.length + n + 1 + 1 = pre.length + (n + 1) + 1 := by omega
      rw [e4, ih pre (n + 1)]
      simp [List.filter_cons, h]
    · have e1 : collectOffsets cb (t :: ts) (pre.length + n + 1) n =
          collectOffsets cb ts (pre.length + n + 1 + 1) n := by
        simp [collectOffsets, h]
      rw [e1]
      have e4 : pre.length + n + 1 + 1 = (pre ++ [t]).length + n + 1 := by
        simp; omega
      have e5 : pre ++ t :: ts = (pre ++ [t]) ++ ts := by simp
      rw [e4, e5, ih (pre ++ [t]) n]
      simp [List.filter_cons, h]

theorem applyDeletes_collect (cb : Nat → Bool) (ts : List Nat) :
    applyDeletes (collectOffsets cb ts 1 0) ts = ts.filter (fun t => ! cb t) := by
  simpa using applyDeletes_collectOffsets cb ts [] 0

theorem filter_filter_self (f : Nat → Bool) (l : List Nat) :
    (l.filter f).filter f = l.filter f := by
  induction l with
  | nil => rfl
  | cons a l ih =>
    by_cases h : f a <;> simp [List.filter_cons, h, ih]

theorem critDelete_st (env : Env) (vs : VacState) (b : BlockNumber) (offs : List Nat) :
    (critDelete env vs b offs).st = writePage vs.st b
      { readPage vs.st b with
          tuples := applyDeletes offs (readPage vs.st b).tuples, lsn := vs.nextLsn } := by
  by_cases h : env.needsWAL = true <;> simp [critDelete, emitUpdate, h]

theorem critDelete_stats (env : Env) (vs : VacState) (b : BlockNumber) (offs : List Nat) :
    (critDelete env vs b offs).stats = vs.stats := by
  by_cases h : env.needsWAL = true <;> simp [critDelete, emitUpdate, h]

theorem critDelete_queue (env : Env) (vs : VacState) (b : BlockNumber) (offs : List Nat) :
    (critDelete env vs b offs).queue = vs.queue := by
  by_cases h : env.needsWAL = true <;> simp [critDelete, emitUpdate, h]

theorem critDelete_parentMap (env : Env) (vs : VacState) (b : BlockNumber) (offs : List Nat) :
    (critDelete env vs b offs).parentMap = vs.parentMap := by
  by_cases h : env.needsWAL = true <;> simp [critDelete, emitUpdate, h]

theorem critDelete_deleteLinkMap (env : Env) (vs : VacState) (b : BlockNumber) (offs : List Nat) :
    (critDelete env vs b offs).deleteLinkMap = vs.deleteLinkMap := by
  by_cases h : env.needsWAL = true <;> simp [critDelete, emitUpdate, h]

theorem critDelete_xidMap (env : Env) (vs : VacState) (b : BlockNumber) (offs : List Nat) :
    (critDelete env vs b offs).xidMap = vs.xidMap := by
  by_cases h : env.needsWAL = true <;> simp [critDelete, emitUpdate, h]

theorem critDelete_wal (env : Env) (vs : VacState) (b : BlockNumber) (offs : List Nat) :
    (critDelete env vs b offs).wal =
      if env.needsWAL = true then vs.wal ++ [⟨b, offs, vs.nextLsn⟩] else vs.wal := by
  by_cases h : env.needsWAL = true <;> simp [critDelete, emitUpdate, h]

theorem readPage_critDelete (env : Env) (vs : VacState) (b : BlockNumber)
    (offs : List Nat) (b' : BlockNumber) :
    readPage (critDelete env vs b offs).st b' =
      if b' = b ∧ b < vs.st.pages.length then
        { readPage vs.st b with
            tuples := applyDeletes offs (readPage vs.st b).tuples, lsn := vs.nextLsn }
      else readPage vs.st b' := by
  rw [critDelete_st, readPage_writePage]

theorem critDelete_length (env : Env) (vs : VacState) (b : BlockNumber) (offs : List Nat) :
    (critDelete env vs b offs).st.pages.length = vs.st.pages.length := by
  rw [critDelete_st, writePage_length]

/-- C1: evaluating gistbulkdelete on the chain Root→{L1,L2,L3},
L1→L2→L3 via rightlinks, with the predicate emptying only L2: the run
completes, L2 is marked deleted and loses its entries, the downlink
from the root to L2 is removed, but the rightlink of L1 still points at the
deleted page L2 instead of being spliced to L3 — the left-sibling
splice required by the claim is absent from the code. -/
theorem gistbulkdelete_no_rightlink_splice :
    (gistbulkdelete envC1 stC1 zeroStats 1000 20).err = none ∧
    (readPage (gistbulkdelete envC1 stC1 zeroStats 1000 20).state 2).deleted = true ∧
    (readPage (gistbulkdelete envC1 stC1 zeroStats 1000 20).state 2).tuples = [] ∧
    (readPage (gistbulkdelete envC1 stC1 zeroStats 1000 20).state 0).tuples = [1, 3] ∧
    (readPage (gistbulkdelete envC1 stC1 zeroStats 1000 20).state 1).rightlink = some 2 ∧
    (readPage (gistbulkdelete envC1 stC1 zeroStats 1000 20).state 3).rightlink = none := by
  decide

/-- C2 counterexample: an initialized, empty, live leaf page (not
PageIsNew) satisfies the "is new/empty" hypothesis of the claim, yet the
physical pass neither enqueues {b, isParent=true} nor records the page
as to-delete: the physical pass tests only PageIsNew. -/
theorem physStep_skips_initialized_empty_page :
    (readPage vsEmptyLeaf.st 0).tuples = [] ∧
    (readPage vsEmptyLeaf.st 0).isNew = false ∧
    (physStep envAllDead vsEmptyLeaf 0).queue = [] ∧
    (physStep envAllDead vsEmptyLeaf 0).deleteLinkMap 0 = none := by
  decide

/-- C3 counterexample: inner page 1 (child of the root) has NSN 5 while
its parent the root has NSN 0, so the claim hypothesis that the parent
NSN is below the NSN of b holds, followRight is unset and rightlink is
valid; but the code compares against lastNSN = 10 ≥ 5 and enqueues
nothing. -/
theorem physStep_ignores_parent_nsn :
    (readPage stC3 0).tuples = [1] ∧
    (readPage stC3 0).nsn < (readPage stC3 1).nsn ∧
    (readPage stC3 1).followRight = false ∧
    (readPage stC3 1).rightlink = some 2 ∧
    (physStep envC3 (initVacState stC3 zeroStats) 1).queue = [] := by
  decide

/-- C5 counterexample: GetParent fails with MissingParent on an empty
map even for child = Root, although the claim exempts the root. -/
theorem gistGetParentTab_fails_on_root :
    gistGetParentTab (fun _ => none) GIST_ROOT_BLKNO =
      .error (.MissingParent GIST_ROOT_BLKNO) ∧
    GIST_ROOT_BLKNO = GIST_ROOT_BLKNO := by
  exact ⟨rfl, rfl⟩

/-- C6 counterexample: when the whole index is a single leaf root and
the predicate kills every tuple, BulkDelete aborts with MissingParent
(the physical pass enqueues {Root, isParent=true} and the rescan pass
looks up the nonexistent parent of the root); the root still holds its dead
tuple, so it is not left "empty" as the claim states. -/
theorem gistbulkdelete_all_dead_root_leaf_aborts :
    (gistbulkdelete envAllDead stC6b zeroStats 1000 20).err =
      some (.MissingParent GIST_ROOT_BLKNO) ∧
    (readPage (gistbulkdelete envAllDead stC6b zeroStats 1000 20).state 0).tuples = [42] := by
  decide

/-- C8 counterexample: with the xid gate closed, the first BulkDelete
defers the all-dead leaf 1 and changes no page while counting its dead
tuples; the second run on the identical state again returns
tuples_removed = 2, not 0 as the claim requires. -/
theorem gistbulkdelete_not_idempotent :
    (gistbulkdelete envC8 stC8 zeroStats 1000 20).err = none ∧
    (gistbulkdelete envC8 stC8 zeroStats 1000 20).state = stC8 ∧
    ¬ (gistbulkdelete envC8 (gistbulkdelete envC8 stC8 zeroStats 1000 20).state
        zeroStats 1000 20).stats.tuples_removed = 0 := by
  decide

/-- C8 amended: on the deferred-reclamation state the second run with
the same predicate changes no page and reports pages_deleted = 0, but
re-counts the dead tuples left on the deferred leaf: tuples_removed = 2. -/
theorem gistbulkdelete_second_run_recounts :
    (gistbulkdelete envC8 (gistbulkdelete envC8 stC8 zeroStats 1000 20).state
        zeroStats 1000 20).state =
      (gistbulkdelete envC8 stC8 zeroStats 1000 20).state ∧
    (gistbulkdelete envC8 (gistbulkdelete envC8 stC8 zeroStats 1000 20).state
        zeroStats 1000 20).stats.pages_deleted = 0 ∧
    (gistbulkdelete envC8 (gistbulkdelete envC8 stC8 zeroStats 1000 20).state
        zeroStats 1000 20).stats.tuples_removed = 2 ∧
    (gistbulkdelete envC8 (gistbulkdelete envC8 stC8 zeroStats 1000 20).state
        zeroStats 1000 20).err = none := by
  decide

/-- C9: the remembered snapshot xmin 300 does not precede
RecentGlobalDataXmin 100, so the claim says child 1 is silently skipped
and never reclaimed; but the bool return type of gistGetXidBlock — a
char in this source — truncates the stored xid to 300 mod 256 = 44 on
lookup, TransactionIdPrecedes(44, 100) holds, and the child is
reclaimed: it ends marked deleted with pages_deleted = 1. -/
theorem gistbulkdelete_xid_gate_truncated :
    envC9.precedes envC9.xmin envC9.rgdx = false ∧
    envC9.precedes (envC9.xmin % 256) envC9.rgdx = true ∧
    (gistbulkdelete envC9 stC9 zeroStats 1000 20).err = none ∧
    (readPage (gistbulkdelete envC9 stC9 zeroStats 1000 20).state 1).deleted = true ∧
    (gistbulkdelete envC9 stC9 zeroStats 1000 20).stats.pages_deleted = 1 := by
  decide

/-- C2 amended: for a page the physical pass visits with entries to
delete or an uninitialized (PageIsNew) page: if every entry would be
removed or the page is uninitialized, the pass enqueues
{b, isParent=true}, records the block as to-delete with
processed=false, and touches neither the page nor the WAL; otherwise it
removes exactly the collected offsets (each stored as i minus the
number already scheduled, so that sequential deletion lands on the
dead tuples), stamps the page LSN, and emits one update record when
the relation is WAL-logged (the fake-LSN path emits none). -/
theorem physFinish_dispatch (env : Env) (vs1 : VacState) (blkno : BlockNumber)
    (maxoff : Nat) (isNew : Bool) (offs : List Nat)
    (hb : blkno < vs1.st.pages.length)
    (h : offs.length ≠ 0 ∨ isNew = true) :
    ((maxoff = offs.length ∨ isNew = true) →
      (physFinish env vs1 blkno maxoff isNew offs).queue = vs1.queue ++ [⟨blkno, true⟩] ∧
      (physFinish env vs1 blkno maxoff isNew offs).deleteLinkMap blkno = some (true, false) ∧
      (physFinish env vs1 blkno maxoff isNew offs).st = vs1.st ∧
      (physFinish env vs1 blkno maxoff isNew offs).wal = vs1.wal) ∧
    (¬(maxoff = offs.length ∨ isNew = true) →
      (readPage (physFinish env vs1 blkno maxoff isNew offs).st blkno).tuples =
        applyDeletes offs (readPage vs1.st blkno).tuples ∧
      (offs = collectOffsets env.callback (readPage vs1.st blkno).tuples 1 0 →
        (readPage (physFinish env vs1 blkno maxoff isNew offs).st blkno).tuples =
          (readPage vs1.st blkno).tuples.filter (fun t => ! env.callback t)) ∧
      (physFinish env vs1 blkno maxoff isNew offs).queue = vs1.queue ∧
      (physFinish env vs1 blkno maxoff isNew offs).deleteLinkMap = vs1.deleteLinkMap ∧
      (readPage (physFinish env vs1 blkno maxoff isNew offs).st blkno).lsn = vs1.nextLsn ∧
      (env.needsWAL = true →
        (physFinish env vs1 blkno maxoff isNew offs).wal =
          vs1.wal ++ [⟨blkno, offs, vs1.nextLsn⟩]) ∧
      (env.needsWAL = false →
        (physFinish env vs1 blkno maxoff isNew offs).wal = vs1.wal)) := by
  constructor
  · intro hA
    unfold physFinish
    rw [if_pos h, if_pos hA]
    refine ⟨rfl, ?_, rfl, rfl⟩
    simp [physEnqueue, gistMemorizeLinkToDelete, upd]
  · intro hB
    unfold physFinish
    rw [if_pos h, if_neg hB]
    have hpage := readPage_critDelete env vs1 blkno offs blkno
    rw [if_pos ⟨rfl, hb⟩] at hpage
    refine ⟨?_, ?_, critDelete_queue env vs1 blkno offs,
      critDelete_deleteLinkMap env vs1 blkno offs, ?_, ?_, ?_⟩
    · rw [hpage]
    · intro hoffs
      rw [hpage, hoffs]
      exact applyDeletes_collect env.callback (readPage vs1.st blkno).tuples
    · rw [hpage]
    · intro hw
      rw [critDelete_wal, if_pos hw]
    · intro hw
      rw [critDelete_wal, if_neg (by simp [hw])]

theorem physFinish_dispatch_witness :
    (physFinish envAllDead vsEmptyLeaf 0 1 false [1]).queue =
      vsEmptyLeaf.queue ++ [⟨0, true⟩] ∧
    (physFinish envAllDead vsEmptyLeaf 0 1 false [1]).deleteLinkMap 0 = some (true, false) ∧
    (physFinish envAllDead vsEmptyLeaf 0 1 false [1]).st = vsEmptyLeaf.st := by
  have h := physFinish_dispatch envAllDead vsEmptyLeaf 0 1 false [1]
    (by decide) (Or.inl (by decide))
  have hA := h.1 (Or.inl (by decide))
  exact ⟨hA.1, hA.2.1, hA.2.2.1⟩

/-- C3 amended: for every initialized inner page b visited by the
physical pass with b ≠ Root, a valid rightlink, and either followRight
set or lastNSN (XactLastRecEnd captured at entry) less than the NSN of b,
the work item {rightlink, isParent=false} is appended to the rescan
queue. -/
theorem physStep_enqueues_rightlink (env : Env) (vs : VacState)
    (blkno rl : BlockNumber)
    (hleaf : (readPage vs.st blkno).isLeaf = false)
    (hnew : (readPage vs.st blkno).isNew = false)
    (hroot : blkno ≠ GIST_ROOT_BLKNO)
    (hrl : (readPage vs.st blkno).rightlink = some rl)
    (hcond : (readPage vs.st blkno).followRight = true ∨
      env.lastNSN < (readPage vs.st blkno).nsn) :
    (physStep env vs blkno).queue = vs.queue ++ [⟨rl, false⟩] := by
  rcases hcond with hc | hc <;>
    simp [physStep, physScan, physFinish, physEnqueue, rightlinkEnqueue,
      hleaf, hnew, hroot, hrl, hc]

theorem physStep_enqueues_rightlink_witness :
    (physStep envC3 (initVacState stC3w zeroStats) 1).queue = [⟨2, false⟩] := by
  have h := physStep_enqueues_rightlink envC3 (initVacState stC3w zeroStats) 1 2
    (by decide) (by decide) (by decide) (by decide) (Or.inl (by decide))
  simpa using h

/-- C5 amended: GetParent fails with MissingParent exactly when no
parent is recorded for the child, with no exemption for the root; and
dequeuing a rescan work item {b, isParent=true} whose block has no
recorded parent makes the whole rescan loop return the MissingParent
abort rather than skipping the item. -/
theorem gistGetParentTab_spec :
    (∀ (m : BlockNumber → Option BlockNumber) (c : BlockNumber),
      gistGetParentTab m c = .error (.MissingParent c) ↔ m c = none) ∧
    (∀ (env : Env) (fuel : Nat) (vs : VacState) (b : BlockNumber)
      (rest : List GistBDSItem),
      vs.queue = ⟨b, true⟩ :: rest → vs.parentMap b = none →
      (rescanLoop env (fuel + 1) vs).2 = some (.MissingParent b)) := by
  constructor
  · intro m c
    cases h : m c <;> simp [gistGetParentTab, h]
  · intro env fuel vs b rest hq hpm
    simp [rescanLoop, hq, rescanStep, gistGetParentTab, hpm]

theorem gistGetParentTab_spec_witness :
    (rescanLoop envAllDead 1 vsC5w).2 = some (.MissingParent 3) :=
  gistGetParentTab_spec.2 envAllDead 0 vsC5w 3 [] rfl rfl

theorem rescanTail_root_behavior (env : Env) (vs : VacState) (maxoff : Nat)
    (offs : List Nat)
    (hb : GIST_ROOT_BLKNO < vs.st.pages.length)
    (h1 : offs.length ≠ 0 ∨ ((readPage vs.st GIST_ROOT_BLKNO).isNew
        || (readPage vs.st GIST_ROOT_BLKNO).tuples.isEmpty) = true)
    (h2 : maxoff = offs.length ∨ ((readPage vs.st GIST_ROOT_BLKNO).isNew
        || (readPage vs.st GIST_ROOT_BLKNO).tuples.isEmpty) = true) :
    (rescanTail env vs GIST_ROOT_BLKNO maxoff offs).2 = none ∧
    (readPage (rescanTail env vs GIST_ROOT_BLKNO maxoff offs).1.st
      GIST_ROOT_BLKNO).isLeaf = true ∧
    (readPage (rescanTail env vs GIST_ROOT_BLKNO maxoff offs).1.st
      GIST_ROOT_BLKNO).deleted = (readPage vs.st GIST_ROOT_BLKNO).deleted ∧
    (rescanTail env vs GIST_ROOT_BLKNO maxoff offs).1.queue = vs.queue := by
  unfold rescanTail
  rw [if_pos h1, if_pos h2, if_neg (by simp)]
  have hpage := readPage_critDelete env vs GIST_ROOT_BLKNO offs GIST_ROOT_BLKNO
  rw [if_pos ⟨rfl, hb⟩] at hpage
  have hb1 : GIST_ROOT_BLKNO < (critDelete env vs GIST_ROOT_BLKNO offs).st.pages.length := by
    rw [critDelete_length]; exact hb
  have hread := readPage_writePage (critDelete env vs GIST_ROOT_BLKNO offs).st
    GIST_ROOT_BLKNO GIST_ROOT_BLKNO
    { readPage (critDelete env vs GIST_ROOT_BLKNO offs).st GIST_ROOT_BLKNO with
        isLeaf := true }
  rw [if_pos ⟨rfl, hb1⟩] at hread
  refine ⟨rfl, ?_, ?_, ?_⟩
  · simp only [hread]
  · rw [hread, hpage]
  · exact critDelete_queue env vs GIST_ROOT_BLKNO offs

/-- C6 amended: when the rescan pass reaches the end of an iteration on
the root with every entry removed (or the root empty/new), it sets the
LEAF flag on the root, leaves its deleted flag untouched, and enqueues
no further work; and on a two-level all-dead index (inner root over
two leaves, xid gate open) BulkDelete completes with the root present,
non-deleted, empty and leaf-flagged while every other page is marked
deleted.  When the root is itself a leaf, BulkDelete instead aborts
with MissingParent. -/
theorem rescan_root_becomes_leaf :
    (∀ (env : Env) (vs : VacState) (maxoff : Nat) (offs : List Nat),
      GIST_ROOT_BLKNO < vs.st.pages.length →
      (offs.length ≠ 0 ∨ ((readPage vs.st GIST_ROOT_BLKNO).isNew
          || (readPage vs.st GIST_ROOT_BLKNO).tuples.isEmpty) = true) →
      (maxoff = offs.length ∨ ((readPage vs.st GIST_ROOT_BLKNO).isNew
          || (readPage vs.st GIST_ROOT_BLKNO).tuples.isEmpty) = true) →
      (rescanTail env vs GIST_ROOT_BLKNO maxoff offs).2 = none ∧
      (readPage (rescanTail env vs GIST_ROOT_BLKNO maxoff offs).1.st
        GIST_ROOT_BLKNO).isLeaf = true ∧
      (readPage (rescanTail env vs GIST_ROOT_BLKNO maxoff offs).1.st
        GIST_ROOT_BLKNO).deleted = (readPage vs.st GIST_ROOT_BLKNO).deleted ∧
      (rescanTail env vs GIST_ROOT_BLKNO maxoff offs).1.queue = vs.queue) ∧
    ((gistbulkdelete envAllDead stC6 zeroStats 1000 20).err = none ∧
      (readPage (gistbulkdelete envAllDead stC6 zeroStats 1000 20).state 0).tuples = [] ∧
      (readPage (gistbulkdelete envAllDead stC6 zeroStats 1000 20).state 0).isLeaf = true ∧
      (readPage (gistbulkdelete envAllDead stC6 zeroStats 1000 20).state 0).deleted = false ∧
      (readPage (gistbulkdelete envAllDead stC6 zeroStats 1000 20).state 1).deleted = true ∧
      (readPage (gistbulkdelete envAllDead stC6 zeroStats 1000 20).state 2).deleted = true ∧
      (gistbulkdelete envAllDead stC6 zeroStats 1000 20).stats.pages_deleted = 2) := by
  constructor
  · intro env vs maxoff offs hb h1 h2
    exact rescanTail_root_behavior env vs maxoff offs hb h1 h2
  · decide

theorem rescan_root_becomes_leaf_witness :
    (rescanTail envAllDead (initVacState stC6b zeroStats) GIST_ROOT_BLKNO 1 [1]).2 = none ∧
    (readPage (rescanTail envAllDead (initVacState stC6b zeroStats)
      GIST_ROOT_BLKNO 1 [1]).1.st GIST_ROOT_BLKNO).isLeaf = true := by
  have h := rescan_root_becomes_leaf.1 envAllDead (initVacState stC6b zeroStats) 1 [1]
    (by decide) (Or.inl (by decide)) (Or.inl (by decide))
  exact ⟨h.1, h.2.1⟩

theorem memCheckExceeds_false_of_le (npages mwm : Nat)
    (h : ¬ npages * (sizeofParentMapEntry + sizeofBlockNumber) > mwm * 1024) :
    memCheckExceeds npages mwm = false := by
  simp only [memCheckExceeds, int32OfNat, decide_eq_false_iff_not, not_lt]
  set prod := npages * (sizeofParentMapEntry + sizeofBlockNumber) with hp
  have hle : prod ≤ mwm * 1024 := Nat.le_of_not_lt h
  have hmle : prod % 4294967296 ≤ prod := Nat.mod_le _ _
  have hmlt : prod % 4294967296 < 4294967296 := Nat.mod_lt _ (by norm_num)
  split <;> omega

/-- C10: on every normally returning invocation that takes the two-pass
path, hash_destroy is called on all four handles in the order xidMap,
rightLinkMap, deleteLinkMap, parentMap, and the rightLinkMap argument
is still the never-assigned (uninitialized) handle. -/
theorem gistbulkdelete_destroys_uninitialized_rightLinkMap (env : Env)
    (st : IndexState) (stats0 : BulkStats) (mwm fuel : Nat)
    (hmem : ¬ st.pages.length * (sizeofParentMapEntry + sizeofBlockNumber) > mwm * 1024)
    (hok : (gistbulkdelete env st stats0 mwm fuel).err = none) :
    (gistbulkdelete env st stats0 mwm fuel).hashDestroyArgs =
      [some 2, none, some 1, some 0] ∧
    (gistbulkdelete env st stats0 mwm fuel).hashDestroyArgs.get? 1 = some none := by
  have hchk := memCheckExceeds_false_of_le st.pages.length mwm hmem
  simp only [gistbulkdelete] at hok ⊢
  rw [if_neg (by simp [hchk])] at hok ⊢
  simp only [gistbulkdeleteTwoPass] at hok ⊢
  rw [hok]
  exact ⟨rfl, rfl⟩

theorem gistbulkdelete_destroys_uninitialized_rightLinkMap_witness :
    (gistbulkdelete envAllDead stC6 zeroStats 1000 20).hashDestroyArgs =
      [some 2, none, some 1, some 0] :=
  (gistbulkdelete_destroys_uninitialized_rightLinkMap envAllDead stC6 zeroStats
    1000 20 (by decide) (by decide)).1

theorem leafOnlyPurge_refl (cb : Nat → Bool) (p : GistPage) : leafOnlyPurge cb p p :=
  ⟨rfl, rfl, rfl, Or.inl rfl⟩

theorem leafOnlyPurge_trans (cb : Nat → Bool) {p q r : GistPage}
    (h1 : leafOnlyPurge cb p q) (h2 : leafOnlyPurge cb q r) :
    leafOnlyPurge cb p r := by
  obtain ⟨d1, l1, r1, t1⟩ := h1
  obtain ⟨d2, l2, r2, t2⟩ := h2
  refine ⟨d2.trans d1, l2.trans l1, r2.trans r1, ?_⟩
  rcases t1 with t1 | ⟨hl1, t1⟩
  · rcases t2 with t2 | ⟨hl2, t2⟩
    · exact Or.inl (t2.trans t1)
    · exact Or.inr ⟨l1 ▸ hl2, by rw [t2, t1]⟩
  · rcases t2 with t2 | ⟨hl2, t2⟩
    · exact Or.inr ⟨hl1, t2.trans t1⟩
    · exact Or.inr ⟨hl1, by rw [t2, t1, filter_filter_self]⟩

theorem leafOnlyPurge_critDelete (cb : Nat → Bool) (env : Env) (w : VacState)
    (blkno : BlockNumber)
    (hleaf : (readPage w.st blkno).isLeaf = true) (b : BlockNumber) :
    leafOnlyPurge cb (readPage w.st b)
      (readPage (critDelete env w blkno
        (collectOffsets cb (readPage w.st blkno).tuples 1 0)).st b) := by
  rw [readPage_critDelete]
  by_cases hc : b = blkno ∧ blkno < w.st.pages.length
  · obtain ⟨rfl, hlt⟩ := hc
    rw [if_pos ⟨rfl, hlt⟩]
    exact ⟨rfl, rfl, rfl,
      Or.inr ⟨hleaf, applyDeletes_collect cb (readPage w.st b).tuples⟩⟩
  · rw [if_neg hc]
    exact leafOnlyPurge_refl _ _

theorem logicalLeafStep_stats_pd (env : Env) (vs : VacState) (blkno : BlockNumber) :
    (logicalLeafStep env vs blkno).stats.pages_deleted = vs.stats.pages_deleted := by
  simp only [logicalLeafStep]
  by_cases hnt : (collectOffsets env.callback (readPage vs.st blkno).tuples 1 0).length ≠ 0
  · rw [if_pos hnt, critDelete_stats]
  · rw [if_neg hnt]

theorem logicalLeafStep_rel (env : Env) (vs : VacState) (blkno : BlockNumber)
    (hleaf : (readPage vs.st blkno).isLeaf = true) (b : BlockNumber) :
    leafOnlyPurge env.callback (readPage vs.st b)
      (readPage (logicalLeafStep env vs blkno).st b) := by
  simp only [logicalLeafStep]
  by_cases hnt : (collectOffsets env.callback (readPage vs.st blkno).tuples 1 0).length ≠ 0
  · rw [if_pos hnt]
    exact leafOnlyPurge_critDelete env.callback env
      { vs with stats :=
          { vs.stats with
              tuples_removed := vs.stats.tuples_removed +
                (collectOffsets env.callback (readPage vs.st blkno).tuples 1 0).length,
              num_index_tuples := vs.stats.num_index_tuples +
                ((readPage vs.st blkno).tuples.length -
                  (collectOffsets env.callback (readPage vs.st blkno).tuples 1 0).length) } }
      blkno hleaf b
  · rw [if_neg hnt]
    exact leafOnlyPurge_refl _ _

theorem logicalLoop_inv (env : Env) :
    ∀ (fuel : Nat) (stack : List GistBDItem) (vs : VacState),
      (logicalLoop env fuel stack vs).1.stats.pages_deleted = vs.stats.pages_deleted ∧
      ∀ b, leafOnlyPurge env.callback (readPage vs.st b)
        (readPage (logicalLoop env fuel stack vs).1.st b) := by
  intro fuel
  induction fuel with
  | zero =>
    intro stack vs
    exact ⟨rfl, fun b => leafOnlyPurge_refl _ _⟩
  | succ fuel ih =>
    intro stack vs
    cases stack with
    | nil =>
      exact ⟨rfl, fun b => leafOnlyPurge_refl _ _⟩
    | cons it rest =>
      simp only [logicalLoop]
      by_cases hleaf : (readPage vs.st it.blkno).isLeaf = true
      · rw [if_pos hleaf]
        have hdead : ¬ (it.blkno = GIST_ROOT_BLKNO ∧
            (readPage vs.st it.blkno).isLeaf = false) := by
          rintro ⟨-, hf⟩
          rw [hleaf] at hf
          simp at hf
        rw [if_neg hdead]
        obtain ⟨ihpd, ihrel⟩ := ih
          (pushStackIfSplited (readPage vs.st it.blkno) it.blkno it.parentlsn rest)
          (logicalLeafStep env vs it.blkno)
        refine ⟨?_, fun b => ?_⟩
        · rw [ihpd, logicalLeafStep_stats_pd]
        · exact leafOnlyPurge_trans env.callback
            (logicalLeafStep_rel env vs it.blkno hleaf b) (ihrel b)
      · rw [if_neg hleaf]
        exact ih _ vs

/-- C4 counterexample: a 360000000-block index against a 65536-kilobyte
(64 MB) budget: the true product 4320000000 exceeds the budget
67108864 bytes, yet the 32-bit int store wraps it to 25032704, the
budget check fails, and gistbulkdelete runs the two-pass algorithm
instead of the fallback the claim mandates. -/
theorem gistbulkdelete_dispatch_twopass (env : Env) (st : IndexState)
    (stats0 : BulkStats) (mwm fuel : Nat)
    (hchk : memCheckExceeds st.pages.length mwm = false) :
    gistbulkdelete env st stats0 mwm fuel =
      gistbulkdeleteTwoPass env st
        { stats0 with estimated_count := false, num_index_tuples := 0 } fuel := by
  simp only [gistbulkdelete]
  rw [if_neg (by simp [hchk])]

theorem gistbulkdelete_membudget_wraps :
    stBig.pages.length * (sizeofParentMapEntry + sizeofBlockNumber) > 65536 * 1024 ∧
    memCheckExceeds stBig.pages.length 65536 = false ∧
    gistbulkdelete envAllDead stBig zeroStats 65536 20 =
      gistbulkdeleteTwoPass envAllDead stBig
        { zeroStats with estimated_count := false, num_index_tuples := 0 } 20 := by
  have hlen : stBig.pages.length = 360000000 :=
    List.length_replicate 360000000 defaultPage
  have hchk : memCheckExceeds stBig.pages.length 65536 = false := by
    rw [hlen]; decide
  exact ⟨by rw [hlen]; decide, hchk,
    gistbulkdelete_dispatch_twopass envAllDead stBig zeroStats 65536 20 hchk⟩

/-- C4 amended: when the 32-bit int store of npages times the per-page
map entry size exceeds maintenance_work_mem (kilobytes, hence the
×1024) — which for npages up to INT_MAX/12 coincides with the true
product exceeding the budget, but wraps mod 2^32 above that —
gistbulkdelete runs the logical fallback instead of the two-pass
algorithm; the fallback leaves every deleted flag, leaf flag and
rightlink untouched (so no page is reclaimed), at most filters dead
entries out of leaf pages, and returns with pages_deleted = 0 when the
incoming statistics were fresh. -/
theorem gistbulkdelete_memory_fallback (env : Env) (st : IndexState)
    (stats0 : BulkStats) (mwm fuel : Nat)
    (hmem : memCheckExceeds st.pages.length mwm = true)
    (hpd : stats0.pages_deleted = 0) :
    gistbulkdelete env st stats0 mwm fuel =
      gistbulkdeletelogical env st
        { stats0 with estimated_count := false, num_index_tuples := 0 } fuel ∧
    (gistbulkdelete env st stats0 mwm fuel).stats.pages_deleted = 0 ∧
    ∀ b, leafOnlyPurge env.callback (readPage st b)
      (readPage (gistbulkdelete env st stats0 mwm fuel).state b) := by
  have heq : gistbulkdelete env st stats0 mwm fuel =
      gistbulkdeletelogical env st
        { stats0 with estimated_count := false, num_index_tuples := 0 } fuel := by
    simp only [gistbulkdelete]
    rw [if_pos hmem]
  refine ⟨heq, ?_, fun b => ?_⟩
  · rw [heq]
    simp only [gistbulkdeletelogical]
    rw [(logicalLoop_inv env fuel _ _).1]
    simp [initVacState, hpd]
  · rw [heq]
    simp only [gistbulkdeletelogical]
    exact (logicalLoop_inv env fuel _ _).2 b

theorem gistbulkdelete_memory_fallback_witness :
    (gistbulkdelete envAllDead stC6 zeroStats 0 20).stats.pages_deleted = 0 ∧
    leafOnlyPurge envAllDead.callback (readPage stC6 1)
      (readPage (gistbulkdelete envAllDead stC6 zeroStats 0 20).state 1) := by
  have h := gistbulkdelete_memory_fallback envAllDead stC6 zeroStats 0 20
    (by decide) rfl
  exact ⟨h.2.1, h.2.2 1⟩

theorem rightlinkEnqueue_st (env : Env) (vs : VacState) (blkno : BlockNumber)
    (page : GistPage) : (rightlinkEnqueue env vs blkno page).st = vs.st := by
  simp only [rightlinkEnqueue, physEnqueue]
  split
  · split <;> rfl
  · rfl

theorem rightlinkEnqueue_stats (env : Env) (vs : VacState) (blkno : BlockNumber)
    (page : GistPage) : (rightlinkEnqueue env vs blkno page).stats = vs.stats := by
  simp only [rightlinkEnqueue, physEnqueue]
  split
  · split <;> rfl
  · rfl

theorem physScan_st (env : Env) (vs : VacState) (blkno : BlockNumber) :
    (physScan env vs blkno).1.st = vs.st := by
  simp only [physScan, physEnqueue]
  split
  · rfl
  · simp only [rightlinkEnqueue_st]

theorem physScan_counts (env : Env) (vs : VacState) (blkno : BlockNumber) :
    (physScan env vs blkno).1.stats.num_index_tuples +
      (physScan env vs blkno).1.stats.tuples_removed =
      vs.stats.num_index_tuples + vs.stats.tuples_removed +
      (if (readPage vs.st blkno).isLeaf = true
        then (readPage vs.st blkno).tuples.length else 0) := by
  simp only [physScan, physEnqueue]
  by_cases hleaf : (readPage vs.st blkno).isLeaf = true
  · rw [if_pos hleaf, if_pos hleaf]
    have hle := collectOffsets_length_le env.callback (readPage vs.st blkno).tuples 1 0
    simp only []
    omega
  · rw [if_neg hleaf, if_neg hleaf]
    simp only [rightlinkEnqueue_stats]
    simp

theorem physFinish_stats (env : Env) (vs1 : VacState) (blkno : BlockNumber)
    (maxoff : Nat) (isNew : Bool) (offs : List Nat) :
    (physFinish env vs1 blkno maxoff isNew offs).stats = vs1.stats := by
  simp only [physFinish, physEnqueue]
  split
  · split
    · rfl
    · exact critDelete_stats env vs1 blkno offs
  · rfl

theorem readPage_physFinish_ne (env : Env) (vs1 : VacState) (blkno : BlockNumber)
    (maxoff : Nat) (isNew : Bool) (offs : List Nat) (b' : BlockNumber)
    (hne : b' ≠ blkno) :
    readPage (physFinish env vs1 blkno maxoff isNew offs).st b' = readPage vs1.st b' := by
  simp only [physFinish, physEnqueue]
  split
  · split
    · rfl
    · rw [readPage_critDelete, if_neg (by tauto)]
  · rfl

theorem physStep_counts (env : Env) (vs : VacState) (blkno : BlockNumber) :
    (physStep env vs blkno).stats.num_index_tuples +
      (physStep env vs blkno).stats.tuples_removed =
      vs.stats.num_index_tuples + vs.stats.tuples_removed +
      (if (readPage vs.st blkno).isLeaf = true
        then (readPage vs.st blkno).tuples.length else 0) := by
  simp only [physStep]
  rw [physFinish_stats]
  exact physScan_counts env vs blkno

theorem physStep_readPage_ne (env : Env) (vs : VacState) (blkno b' : BlockNumber)
    (hne : b' ≠ blkno) :
    readPage (physStep env vs blkno).st b' = readPage vs.st b' := by
  simp only [physStep]
  rw [readPage_physFinish_ne _ _ _ _ _ _ _ hne, physScan_st]

theorem physFold_counts (env : Env) (st0 : IndexState) :
    ∀ (l : List BlockNumber) (vs : VacState), l.Nodup →
      (∀ b ∈ l, readPage vs.st b = readPage st0 b) →
      (l.foldl (physStep env) vs).stats.num_index_tuples +
        (l.foldl (physStep env) vs).stats.tuples_removed =
        vs.stats.num_index_tuples + vs.stats.tuples_removed +
        (l.map (fun b => if (readPage st0 b).isLeaf = true
            then (readPage st0 b).tuples.length else 0)).sum := by
  intro l
  induction l with
  | nil => intro vs _ _; simp
  | cons a l ih =>
    intro vs hnd hread
    simp only [List.foldl_cons, List.map_cons, List.sum_cons]
    have hstep := physStep_counts env vs a
    have hread_a : readPage vs.st a = readPage st0 a := hread a (by simp)
    have hrest : ∀ b ∈ l, readPage (physStep env vs a).st b = readPage st0 b := by
      intro b hb
      have hne : b ≠ a := by
        rintro rfl
        exact (List.nodup_cons.mp hnd).1 hb
      rw [physStep_readPage_ne env vs a b hne]
      exact hread b (by simp [hb])
    rw [ih (physStep env vs a) (List.nodup_cons.mp hnd).2 hrest, hstep, hread_a]
    omega

theorem rescanChild_stats (env : Env) (acc : ChildAcc) (c : BlockNumber) :
    (rescanChild env acc c).1.vs.stats.num_index_tuples =
      acc.vs.stats.num_index_tuples ∧
    (rescanChild env acc c).1.vs.stats.tuples_removed =
      acc.vs.stats.tuples_removed := by
  simp only [rescanChild]
  repeat' split
  all_goals refine ⟨?_, ?_⟩
  all_goals simp only [critDelete_stats]

theorem rescanChildrenGo_stats (env : Env) :
    ∀ (cs : List BlockNumber) (acc : ChildAcc),
      (rescanChildrenGo env cs acc).1.vs.stats.num_index_tuples =
        acc.vs.stats.num_index_tuples ∧
      (rescanChildrenGo env cs acc).1.vs.stats.tuples_removed =
        acc.vs.stats.tuples_removed := by
  intro cs
  induction cs with
  | nil => intro acc; exact ⟨rfl, rfl⟩
  | cons c cs ih =>
    intro acc
    have h1 := rescanChild_stats env acc c
    rcases h : rescanChild env acc c with ⟨acc1, e⟩
    rw [h] at h1
    simp only [rescanChildrenGo, h]
    cases e with
    | none =>
      obtain ⟨ha, hb⟩ := ih acc1
      exact ⟨by rw [ha]; exact h1.1, by rw [hb]; exact h1.2⟩
    | some e =>
      exact h1

theorem rescanChildrenGo_stats_eq (env : Env) (cs : List BlockNumber)
    (acc acc1 : ChildAcc) (e : Option VacError)
    (hgo : rescanChildrenGo env cs acc = (acc1, e)) :
    acc1.vs.stats.num_index_tuples = acc.vs.stats.num_index_tuples ∧
    acc1.vs.stats.tuples_removed = acc.vs.stats.tuples_removed := by
  have h := rescanChildrenGo_stats env cs acc
  rw [hgo] at h
  exact h

theorem rescanTail_stats (env : Env) (vs : VacState) (blkno : BlockNumber)
    (maxoff : Nat) (offs : List Nat) :
    (rescanTail env vs blkno maxoff offs).1.stats.num_index_tuples =
      vs.stats.num_index_tuples ∧
    (rescanTail env vs blkno maxoff offs).1.stats.tuples_removed =
      vs.stats.tuples_removed := by
  simp only [rescanTail]
  repeat' split
  all_goals refine ⟨?_, ?_⟩
  all_goals simp only [critDelete_stats]

theorem rescanStep_stats (env : Env) (vs : VacState) (item : GistBDSItem)
    (rest : List GistBDSItem) :
    (rescanStep env vs item rest).1.stats.num_index_tuples =
      vs.stats.num_index_tuples ∧
    (rescanStep env vs item rest).1.stats.tuples_removed =
      vs.stats.tuples_removed := by
  simp only [rescanStep]
  split
  · exact ⟨rfl, rfl⟩
  · rename_i blkno heq
    split
    · exact ⟨rfl, rfl⟩
    · split
      · exact rescanTail_stats env _ _ _ _
      · split
        · rename_i acc e hgo
          have h := rescanChildrenGo_stats_eq env _ _ _ _ hgo
          simp only [rightlinkEnqueue_stats] at h
          exact h
        · rename_i acc hgo
          have h := rescanChildrenGo_stats_eq env _ _ _ _ hgo
          simp only [rightlinkEnqueue_stats] at h
          have ht := rescanTail_stats env acc.vs blkno
            (readPage vs.st blkno).tuples.length acc.offs
          exact ⟨ht.1.trans h.1, ht.2.trans h.2⟩

theorem rescanLoop_stats (env : Env) :
    ∀ (fuel : Nat) (vs : VacState),
      (rescanLoop env fuel vs).1.stats.num_index_tuples =
        vs.stats.num_index_tuples ∧
      (rescanLoop env fuel vs).1.stats.tuples_removed =
        vs.stats.tuples_removed := by
  intro fuel
  induction fuel with
  | zero => intro vs; exact ⟨rfl, rfl⟩
  | succ fuel ih =>
    intro vs
    rcases hq : vs.queue with _ | ⟨item, rest⟩
    · simp only [rescanLoop, hq]
      exact ⟨trivial, trivial⟩
    · simp only [rescanLoop, hq]
      have hs := rescanStep_stats env vs item rest
      rcases h : rescanStep env vs item rest with ⟨vs1, e⟩
      rw [h] at hs
      cases e with
      | none =>
        obtain ⟨ha, hb⟩ := ih vs1
        exact ⟨ha.trans hs.1, hb.trans hs.2⟩
      | some e => exact hs

/-- C7: on the two-pass path with fresh statistics, num_index_tuples
plus tuples_removed equals the number of tuples sitting on leaf pages
at entry — the count the physical pass observes, each tuple exactly
once; the rescan pass never touches either counter, so the totals
reflect only the physical pass. -/
theorem gistbulkdelete_tuple_accounting (env : Env) (st : IndexState)
    (stats0 : BulkStats) (mwm fuel : Nat)
    (hmem : ¬ st.pages.length * (sizeofParentMapEntry + sizeofBlockNumber) > mwm * 1024)
    (hz : stats0.tuples_removed = 0) :
    (gistbulkdelete env st stats0 mwm fuel).stats.num_index_tuples +
      (gistbulkdelete env st stats0 mwm fuel).stats.tuples_removed =
      leafTupleTotal st := by
  have hchk := memCheckExceeds_false_of_le st.pages.length mwm hmem
  simp only [gistbulkdelete]
  rw [if_neg (by simp [hchk])]
  simp only [gistbulkdeleteTwoPass]
  have hloop := rescanLoop_stats env fuel
    (physPass env st.pages.length (initVacState st
      { stats0 with estimated_count := false, num_index_tuples := 0 }))
  rw [hloop.1, hloop.2]
  simp only [physPass]
  have hfold := physFold_counts env st (List.range st.pages.length)
    (initVacState st { stats0 with estimated_count := false, num_index_tuples := 0 })
    (List.nodup_range st.pages.length) (fun b _ => rfl)
  rw [hfold]
  simp [initVacState, leafTupleTotal, hz]

theorem gistbulkdelete_tuple_accounting_witness :
    (gistbulkdelete envC1 stC1 zeroStats 1000 20).stats.num_index_tuples +
      (gistbulkdelete envC1 stC1 zeroStats 1000 20).stats.tuples_removed =
      leafTupleTotal stC1 ∧ leafTupleTotal stC1 = 4 :=
  ⟨gistbulkdelete_tuple_accounting envC1 stC1 zeroStats 1000 20 (by decide) rfl,
   by decide⟩

end GistVacuum
